import Mathlib

/-!
Verification of the invoice-parsing pipeline's response-repair engine
(`invoice_parser.py`: `InvoiceParser._parse_json_response`,
`InvoiceParser._fix_json_response`, `InvoiceParser.parse_invoice`),
the validator (`validators.py`: `InvoiceValidator`) and the file check
(`config.py`: `Config.validate_file`) against their design document.

Modelling conventions:
  * Python text is embedded as `List Char`; the repair engine's string
    operations (`count`, `find`, `rfind`, slicing, `strip`, `startswith`,
    `endswith`, `split`) are translated one by one below.
  * `json.loads` is embedded as the recursive-descent `loads` below over
    the `Json` value type (objects keep Python-dict semantics: a duplicate
    key overwrites the earlier value, keeping its position).  The `NaN` /
    `Infinity` constants accepted by Python's decoder are not modelled.
  * Python floats are IEEE-754 binary64 values; they are embedded as the
    exact rationals representable in binary64, with every arithmetic
    result rounded by `roundToDouble` (round to nearest, ties to even,
    subnormals via the `-1022` exponent clamp; overflow to infinity is
    not modelled).  JSON/`float()` number parsing evaluates the decimal
    exactly and then rounds, exactly as CPython does.
  * Python dicts are association lists (`List (String × Json)`).  The
    validator's in-place mutations are made explicit: functions return
    the new state of the dict they mutate, and `validate_data_types`
    returns both the shallow copy it builds and the caller-visible state
    of its argument (the shallow copy shares the `items` list, so item
    coercions are visible through both; top-level assignments touch only
    the copy).
  * Functions that Python would abort with an exception on non-dict line
    items (`item.get` on a non-dict) are modelled only on the states the
    pipeline can produce; theorems about them carry an explicit
    "all items are dicts" hypothesis.
-/

namespace InvoiceSpec

/-! ### Exact rationals and binary64 arithmetic

Numbers are embedded as explicit fractions over `ℤ` (denominator kept
positive by construction, not reduced), so that every operation below is
a plain integer computation the kernel can evaluate.  A Python `float`
is the exact rational value of an IEEE-754 binary64 number; every float
operation rounds with `roundToDouble`, exactly as the hardware does. -/

/-- An exact fraction `num / den`, with `den > 0` by construction. -/
structure Frac where
  num : ℤ
  den : ℤ
  deriving DecidableEq

/-- The fraction `n / 1`. -/
def fracOfInt (n : ℤ) : Frac := ⟨n, 1⟩

/-- Exact addition. -/
def fracAdd (a b : Frac) : Frac := ⟨a.num * b.den + b.num * a.den, a.den * b.den⟩

/-- Exact subtraction. -/
def fracSub (a b : Frac) : Frac := ⟨a.num * b.den - b.num * a.den, a.den * b.den⟩

/-- Exact negation. -/
def fracNeg (a : Frac) : Frac := ⟨-a.num, a.den⟩

/-- Exact multiplication. -/
def fracMul (a b : Frac) : Frac := ⟨a.num * b.num, a.den * b.den⟩

/-- Exact division (positive divisor at every use site). -/
def fracDiv (a b : Frac) : Frac := ⟨a.num * b.den, a.den * b.num⟩

/-- Absolute value. -/
def fracAbs (a : Frac) : Frac := ⟨(a.num.natAbs : ℤ), a.den⟩

/-- Strict comparison `a < b` (cross multiplication; positive
denominators). -/
def fracLt (a b : Frac) : Bool := a.num * b.den < b.num * a.den

/-- Value equality up to reduction (cross multiplication). -/
def fracEqv (a b : Frac) : Bool := a.num * b.den = b.num * a.den

/-- Whether the value is negative. -/
def fracIsNeg (a : Frac) : Bool := a.num < 0

/-- Whether the value is zero. -/
def fracIsZero (a : Frac) : Bool := a.num = 0

/-- `2 ^ k` over `ℤ` by structural recursion. -/
def pow2 : Nat → ℤ
  | 0 => 1
  | k + 1 => 2 * pow2 k

/-- `10 ^ k` over `ℤ` by structural recursion. -/
def pow10 : Nat → ℤ
  | 0 => 1
  | k + 1 => 10 * pow10 k

/-- Multiply by `2 ^ j` for `j : ℤ`. -/
def mulPow2 (x : Frac) (j : ℤ) : Frac :=
  if 0 ≤ j then ⟨x.num * pow2 j.toNat, x.den⟩ else ⟨x.num, x.den * pow2 (-j).toNat⟩

/-- `⌊x⌋` (floor division of the numerator by the denominator). -/
def fracFloor (x : Frac) : ℤ := Int.fdiv x.num x.den

/-- Round to an integer, to nearest with ties to even. -/
def roundNearestEven (x : Frac) : ℤ :=
  let f := fracFloor x
  let rN := x.num - f * x.den
  if 2 * rN < x.den then f
  else if 2 * rN > x.den then f + 1
  else if f % 2 = 0 then f else f + 1

/-- `⌊log2 n⌋` for `n ≥ 1`, by fuelled halving. -/
def natLog2 : Nat → Nat → Nat
  | 0, _ => 0
  | fuel + 1, n => if n ≤ 1 then 0 else natLog2 fuel (n / 2) + 1

/-- Smallest `k` (up to the fuel) with `n * 2 ^ k ≥ d`. -/
def scaleUpCount : Nat → ℤ → ℤ → Nat
  | 0, _, _ => 0
  | fuel + 1, n, d => if n ≥ d then 0 else scaleUpCount fuel (2 * n) d + 1

/-- `⌊log2 x⌋` for `x > 0`: the unique `e` with `2^e ≤ x < 2^(e+1)`
(within the fuel bound of 4400 halvings/doublings, far beyond the
binary64 range; values outside it overflow or underflow anyway). -/
def fracFloorLog2 (x : Frac) : ℤ :=
  if x.num ≥ x.den then (natLog2 4400 (fracFloor x).toNat : ℤ)
  else -(scaleUpCount 4400 x.num x.den : ℤ)

/-- The binary64 (Python `float`) value nearest a rational: round to
nearest, ties to even, with the subnormal exponent clamp at `-1022`.
Overflow past the largest finite double is not modelled. -/
def roundToDouble (x : Frac) : Frac :=
  if x.num = 0 then ⟨0, 1⟩
  else
    let a := fracAbs x
    let e0 := fracFloorLog2 a
    let e : ℤ := if e0 < -1022 then -1022 else e0
    let m : ℤ := roundNearestEven (mulPow2 a (52 - e))
    let s : ℤ := if x.num < 0 then -1 else 1
    mulPow2 ⟨s * m, 1⟩ (e - 52)

/-- Python float addition (`a + b` rounded to binary64). -/
def doubleAdd (a b : Frac) : Frac := roundToDouble (fracAdd a b)

/-- Python float subtraction (`a - b` rounded to binary64). -/
def doubleSub (a b : Frac) : Frac := roundToDouble (fracSub a b)


/-- JSON/Python values: `null`/`None`, booleans, ints, floats, strings,
lists and dicts (association lists in insertion order). -/
inductive Json where
  | null
  | bool (b : Bool)
  | int (n : Int)
  | float (q : Frac)
  | str (s : String)
  | arr (xs : List Json)
  | obj (kvs : List (String × Json))

/-- Python truthiness (`bool(v)`): `None`, `False`, zero, the empty
string and empty containers are falsy. -/
def truthy : Json → Bool
  | .null => false
  | .bool b => b
  | .int n => n ≠ 0
  | .float q => ¬ fracIsZero q
  | .str s => s ≠ ""
  | .arr xs => ¬ xs.isEmpty
  | .obj kvs => ¬ kvs.isEmpty

/-- Whether a value is a dict (`isinstance(v, dict)`). -/
def isDict : Json → Bool
  | .obj _ => true
  | _ => false

/-- Whether a value is a list (`isinstance(v, list)`). -/
def isList : Json → Bool
  | .arr _ => true
  | _ => false

/-- The test `v is None or v == "None"` used throughout the validator to
skip absent-ish values (a non-string never equals a string in Python). -/
def isNoneLike : Json → Bool
  | .null => true
  | .str s => s = "None"
  | _ => false

/-- Python's `a or b`: `a` if truthy, else `b`. -/
def pyOr (a b : Json) : Json := if truthy a then a else b

/-! ### Python string primitives (over `List Char`) -/

/-- The ASCII whitespace stripped by Python's `str.strip()`. -/
def isPySpace (c : Char) : Bool :=
  c = ' ' || c = '\t' || c = '\n' || c = '\r' || c = '\x0b' || c = '\x0c'

/-- `s.strip()`. -/
def pyStrip (s : List Char) : List Char :=
  ((s.dropWhile isPySpace).reverse.dropWhile isPySpace).reverse

/-- `s.rstrip(',')`. -/
def dropTrailingCommas (s : List Char) : List Char :=
  (s.reverse.dropWhile (fun c => c = ',')).reverse

/-- `s.count(c)` for a single character. -/
def countChar (c : Char) (s : List Char) : Nat := s.count c

/-- ASCII lower-casing of one character (`str.lower()`; the file suffixes
it is applied to are ASCII). -/
def charLower (c : Char) : Char :=
  if 'A' ≤ c ∧ c ≤ 'Z' then Char.ofNat (c.toNat + 32) else c

/-- `s.lower()`. -/
def pyLower (s : String) : String := ⟨s.toList.map charLower⟩

/-- All indices at which `pat` occurs in `s`. -/
def occurrences (pat s : List Char) : List Nat :=
  (List.range (s.length + 1)).filter (fun i => pat.isPrefixOf (s.drop i))

/-- `s.find(pat)`: index of the first occurrence (`none` for Python's `-1`). -/
def pyFind (pat s : List Char) : Option Nat := (occurrences pat s).head?

/-- `s.rfind(pat)`: index of the last occurrence (`none` for Python's `-1`). -/
def pyRFind (pat s : List Char) : Option Nat := (occurrences pat s).getLast?

/-- `pat in s` (substring containment). -/
def containsSub (pat s : List Char) : Bool := (pyFind pat s).isSome

/-! ### The JSON parser (`json.loads`)

Recursive descent over the strict JSON grammar used by Python's decoder:
values are objects, arrays, double-quoted strings (with the standard
escapes; a `\uXXXX` escape becomes the character with that code), numbers
(`-? (0 | [1-9][0-9]*) frac? exp?`, an integer when there is no fraction
or exponent, otherwise a binary64 float), `true`, `false`, `null`.
Unescaped control characters inside strings are rejected (strict mode).
Leading and trailing JSON whitespace is allowed, trailing data is not. -/

/-- JSON structural whitespace. -/
def jsonWs (c : Char) : Bool := c = ' ' || c = '\t' || c = '\n' || c = '\r'

/-- Drop leading JSON whitespace. -/
def skipWs (s : List Char) : List Char := s.dropWhile jsonWs

/-- Dict insertion with Python semantics: a duplicate key keeps its
original position and gets the new value, a new key is appended. -/
def insertKey (kvs : List (String × Json)) (k : String) (v : Json) :
    List (String × Json) :=
  if kvs.any (fun p => p.1 = k) then
    kvs.map (fun p => if p.1 = k then (k, v) else p)
  else kvs ++ [(k, v)]

/-- Value of a hex digit. -/
def hexVal : Char → Option Nat := fun c =>
  if '0' ≤ c ∧ c ≤ '9' then some (c.toNat - 48)
  else if 'a' ≤ c ∧ c ≤ 'f' then some (c.toNat - 87)
  else if 'A' ≤ c ∧ c ≤ 'F' then some (c.toNat - 55)
  else none

/-- Parse the body of a JSON string after its opening quote; returns the
decoded characters and the remainder after the closing quote. -/
def parseStringBody : List Char → Option (List Char × List Char)
  | [] => none
  | '"' :: rest => some ([], rest)
  | '\\' :: e :: rest =>
    match e with
    | '"' => (parseStringBody rest).map (fun p => ('"' :: p.1, p.2))
    | '\\' => (parseStringBody rest).map (fun p => ('\\' :: p.1, p.2))
    | '/' => (parseStringBody rest).map (fun p => ('/' :: p.1, p.2))
    | 'b' => (parseStringBody rest).map (fun p => ('\x08' :: p.1, p.2))
    | 'f' => (parseStringBody rest).map (fun p => ('\x0c' :: p.1, p.2))
    | 'n' => (parseStringBody rest).map (fun p => ('\n' :: p.1, p.2))
    | 'r' => (parseStringBody rest).map (fun p => ('\r' :: p.1, p.2))
    | 't' => (parseStringBody rest).map (fun p => ('\t' :: p.1, p.2))
    | 'u' =>
      match rest with
      | a :: b :: c :: d :: rest2 =>
        match hexVal a, hexVal b, hexVal c, hexVal d with
        | some x, some y, some z, some w =>
          (parseStringBody rest2).map
            (fun p => (Char.ofNat (((x * 16 + y) * 16 + z) * 16 + w) :: p.1, p.2))
        | _, _, _, _ => none
      | _ => none
    | _ => none
  | c :: rest =>
    if c.toNat < 32 then none
    else (parseStringBody rest).map (fun p => (c :: p.1, p.2))

/-- One or more decimal digits. -/
def takeDigits (s : List Char) : List Char × List Char :=
  (s.takeWhile Char.isDigit, s.dropWhile Char.isDigit)

/-- Numeric value of a digit string. -/
def digitsToNat (ds : List Char) : Nat :=
  ds.foldl (fun a c => a * 10 + (c.toNat - 48)) 0

/-- The exact rational `m.f * 10^ex` of a decimal literal, given the
integer-part digits, fraction digits and exponent. -/
def decimalValue (intPart fracPart : List Char) (ex : ℤ) : Frac :=
  let num0 : ℤ := (digitsToNat intPart : ℤ) * pow10 fracPart.length + (digitsToNat fracPart : ℤ)
  let den0 : ℤ := pow10 fracPart.length
  if 0 ≤ ex then ⟨num0 * pow10 ex.toNat, den0⟩ else ⟨num0, den0 * pow10 (-ex).toNat⟩

/-- Parse the JSON number grammar at the head of `s`: optional `-`,
`0 | [1-9][0-9]*`, optional fraction, optional exponent.  Yields a Python
int when there is no fraction and no exponent, else a binary64 float. -/
def parseNumber (s : List Char) : Option (Json × List Char) :=
  let (neg, s1) := match s with
    | '-' :: r => (true, r)
    | _ => (false, s)
  let ipOpt : Option (List Char × List Char) :=
    match s1 with
    | '0' :: r => some ([('0' : Char)], r)
    | c :: _ =>
      if c.isDigit ∧ c ≠ '0' then some (takeDigits s1)
      else none
    | [] => none
  ipOpt.bind (fun p =>
    let ip := p.1
    let r2 := p.2
    let fr : List Char × List Char :=
      match r2 with
      | '.' :: r => takeDigits r
      | _ => ([], r2)
    let fracDigits := fr.1
    let r3 := fr.2
    if r2.head? = some '.' ∧ fracDigits = [] then none
    else
      let ep : Bool × Bool × List Char × List Char :=
        match r3 with
        | 'e' :: '+' :: r => (true, false, (takeDigits r).1, (takeDigits r).2)
        | 'e' :: '-' :: r => (true, true, (takeDigits r).1, (takeDigits r).2)
        | 'e' :: r => (true, false, (takeDigits r).1, (takeDigits r).2)
        | 'E' :: '+' :: r => (true, false, (takeDigits r).1, (takeDigits r).2)
        | 'E' :: '-' :: r => (true, true, (takeDigits r).1, (takeDigits r).2)
        | 'E' :: r => (true, false, (takeDigits r).1, (takeDigits r).2)
        | _ => (false, false, [], r3)
      let hasExp := ep.1
      let expNeg := ep.2.1
      let expDigits := ep.2.2.1
      let r4 := ep.2.2.2
      if hasExp ∧ expDigits = [] then none
      else
        let ex : ℤ := if expNeg then -(digitsToNat expDigits : ℤ) else (digitsToNat expDigits : ℤ)
        let sign : Frac := if neg then ⟨-1, 1⟩ else ⟨1, 1⟩
        if fracDigits = [] ∧ ¬ hasExp then
          some (Json.int ((if neg then -1 else 1) * (digitsToNat ip : ℤ)), r2)
        else
          some (Json.float (roundToDouble (fracMul sign (decimalValue ip fracDigits ex))), r4))

mutual

/-- Parse one JSON value at the head of `s` (fuelled recursion; the fuel
passed by `loads` is always sufficient). -/
def parseVal : Nat → List Char → Option (Json × List Char)
  | 0, _ => none
  | fuel + 1, s =>
    match skipWs s with
    | [] => none
    | c :: rest =>
      if c = '"' then
        (parseStringBody rest).map (fun p => (Json.str ⟨p.1⟩, p.2))
      else if c = '{' then
        parseMembers fuel (skipWs rest) []
      else if c = '[' then
        parseElems fuel (skipWs rest) []
      else if "true".toList.isPrefixOf (c :: rest) then
        some (Json.bool true, (c :: rest).drop 4)
      else if "false".toList.isPrefixOf (c :: rest) then
        some (Json.bool false, (c :: rest).drop 5)
      else if "null".toList.isPrefixOf (c :: rest) then
        some (Json.null, (c :: rest).drop 4)
      else
        parseNumber (c :: rest)

/-- Parse the members of an object after `{` (with any following
whitespace already skipped), given the members accumulated so far. -/
def parseMembers : Nat → List Char → List (String × Json) → Option (Json × List Char)
  | 0, _, _ => none
  | fuel + 1, s, acc =>
    match s with
    | '}' :: rest => if acc.isEmpty then some (Json.obj [], rest) else none
    | '"' :: rest =>
      (parseStringBody rest).bind (fun (key, r1) =>
        match skipWs r1 with
        | ':' :: r2 =>
          (parseVal fuel r2).bind (fun (v, r3) =>
            let acc2 := insertKey acc ⟨key⟩ v
            match skipWs r3 with
            | ',' :: r4 =>
              match skipWs r4 with
              | '"' :: r5 => parseMembers fuel ('"' :: r5) acc2
              | _ => none
            | '}' :: r4 => some (Json.obj acc2, r4)
            | _ => none)
        | _ => none)
    | _ => none

/-- Parse the elements of an array after `[` (with any following
whitespace already skipped), given the elements accumulated so far. -/
def parseElems : Nat → List Char → List Json → Option (Json × List Char)
  | 0, _, _ => none
  | fuel + 1, s, acc =>
    match s with
    | ']' :: rest => if acc.isEmpty then some (Json.arr [], rest) else none
    | _ =>
      (parseVal fuel s).bind (fun (v, r1) =>
        match skipWs r1 with
        | ',' :: r2 => parseElems fuel (skipWs r2) (acc ++ [v])
        | ']' :: r2 => some (Json.arr (acc ++ [v]), r2)
        | _ => none)

end

/-- `json.loads`: parse one JSON document; leading/trailing JSON
whitespace is allowed, anything else trailing is an error. -/
def loads (s : List Char) : Option Json :=
  match parseVal (2 * s.length + 4) s with
  | some (v, rest) => if skipWs rest = [] then some v else none
  | none => none

/-! ### The response-repair engine (`invoice_parser.py`)

`_fix_json_response` is a sequence of in-place reassignments of the
`response` string; each block below is one of them, composed in order by
`fix_json_response`. -/

/-- Markdown cleanup at the top of `_parse_json_response` (lines 104-110):
strip, drop a leading ` ```json ` fence marker (7 characters) and a
trailing ` ``` ` (3 characters), strip again. -/
def stripFences (raw : List Char) : List Char :=
  let c := pyStrip raw
  let c := if "```json".toList.isPrefixOf c then c.drop 7 else c
  let c := if "```".toList.isSuffixOf c then c.take (c.length - 3) else c
  pyStrip c

/-- Step: if `response.count('{') > response.count('}')`, append the
missing closing braces (lines 161-164). -/
def fixBraces (s : List Char) : List Char :=
  if countChar '{' s > countChar '}' s then
    s ++ List.replicate (countChar '{' s - countChar '}' s) '}'
  else s

/-- Step: dangling-field repair (lines 167-180).  If the text contains a
quote, look after the last comma; when the stripped tail starts with a
quote but does not end with one, replace it by `key: null` (when it has a
colon) or by `null`. -/
def fixDangling (s : List Char) : List Char :=
  if containsSub ['"'] s then
    match pyRFind [','] s with
    | some lastComma =>
      if 0 < lastComma then
        let afterComma := pyStrip (s.drop (lastComma + 1))
        if afterComma.head? = some '"' ∧ ¬ afterComma.getLast? = some '"' then
          if containsSub [':'] afterComma then
            s.take (lastComma + 1) ++ afterComma.takeWhile (fun c => c ≠ ':') ++ ": null".toList
          else
            s.take (lastComma + 1) ++ "null".toList
        else s
      else s
    | none => s
  else s

/-- The bracket-depth scan of lines 190-201: index of the character at
which the depth, starting at 1, first returns to 0 (the close of the
items array), scanning `'['` as +1 and `']'` as -1. -/
def scanArrayClose (s : List Char) : Option Nat :=
  go s 1 0
where
  go : List Char → Nat → Nat → Option Nat
    | [], _, _ => none
    | c :: rest, depth, i =>
      if c = '[' then go rest (depth + 1) (i + 1)
      else if c = ']' then
        if depth = 1 then some i else go rest (depth - 1) (i + 1)
      else go rest depth (i + 1)

/-- Step: item-array repair (lines 183-228).  When `"items": [` occurs at
a positive index and the array has no matching close, truncate after the
last complete item (last `},`, else last `}` with balanced braces before
it) and close the array; with no complete item the array becomes empty. -/
def fixItems (s : List Char) : List Char :=
  match pyFind "\"items\": [".toList s with
  | some itemsStart =>
    if 0 < itemsStart then
      let itemsContent := s.drop (itemsStart + 10)
      match scanArrayClose itemsContent with
      | some _ => s
      | none =>
        match pyRFind "\x7d,".toList itemsContent with
        | some lastCompleteItem =>
          if 0 < lastCompleteItem then
            s.take (itemsStart + 10 + lastCompleteItem + 1) ++ [']']
          else fixItemsFallback s itemsStart itemsContent
        | none => fixItemsFallback s itemsStart itemsContent
    else s
  | none => s
where
  fixItemsFallback (s : List Char) (itemsStart : Nat) (itemsContent : List Char) :
      List Char :=
    match pyRFind ['}'] itemsContent with
    | some lastBrace =>
      if 0 < lastBrace then
        let beforeBrace := itemsContent.take (lastBrace + 1)
        if countChar '{' beforeBrace = countChar '}' beforeBrace then
          s.take (itemsStart + 10 + lastBrace + 1) ++ [']']
        else s.take (itemsStart + 10) ++ "[]".toList
      else s.take (itemsStart + 10) ++ "[]".toList
    | none => s.take (itemsStart + 10) ++ "[]".toList

/-- Step: if `response.count('[') > response.count(']')`, append the
missing closing brackets (lines 231-233). -/
def fixBrackets (s : List Char) : List Char :=
  if countChar '[' s > countChar ']' s then
    s ++ List.replicate (countChar '[' s - countChar ']' s) ']'
  else s

/-- Step: if the response does not end with a closing brace, strip
trailing commas and append one (lines 236-237). -/
def fixEnding (s : List Char) : List Char :=
  if ¬ s.getLast? = some '}' then dropTrailingCommas s ++ ['}'] else s

/-- `InvoiceParser._fix_json_response` (lines 158-239): the five repair
steps applied in source order. -/
def fix_json_response (s : List Char) : List Char :=
  fixEnding (fixBrackets (fixItems (fixDangling (fixBraces s))))

/-- The failures `_parse_json_response` can surface: `malformedResponse`
is the `ValueError("Invalid JSON response from OpenAI: ...")` raised when
the repaired text still fails to parse, `unexpectedShape` the
`ValueError("Response is not a valid JSON object")` raised when a parse
on the repair path yields a non-dict. -/
inductive RepairError where
  | malformedResponse
  | unexpectedShape

/-- `InvoiceParser._parse_json_response` (lines 97-156): strip markdown
fences, try a direct parse (returning its result immediately on success,
line 118), otherwise run `_fix_json_response` and parse again, rejecting
a repaired result that is not a dict (lines 145-146).  The diagnostic
dump of the pre/post-repair text (lines 132-139) has no effect on the
result and is not modelled. -/
def parse_json_response (raw : List Char) : Except RepairError Json :=
  let cleaned := stripFences raw
  match loads cleaned with
  | some parsed => .ok parsed
  | none =>
    match loads (fix_json_response cleaned) with
    | some parsed => if isDict parsed then .ok parsed else .error .unexpectedShape
    | none => .error .malformedResponse

/-! ### `float()`, `str()` and UPC helpers -/

/-- CPython `float(str)`: strip whitespace, optional sign, `digits`,
`digits '.' digits?`, `'.' digits` or `digits '.'`, optional exponent.
The `inf`/`infinity`/`nan` names and underscore digit separators are not
modelled.  The decimal is evaluated exactly and rounded to binary64. -/
def pyFloatOfString (s : String) : Option Frac :=
  let cs := pyStrip s.toList
  let sg : Bool × List Char :=
    match cs with
    | '+' :: r => (false, r)
    | '-' :: r => (true, r)
    | _ => (false, cs)
  let neg := sg.1
  let (ip, r1) := takeDigits sg.2
  let fr : List Char × List Char :=
    match r1 with
    | '.' :: r => takeDigits r
    | _ => ([], r1)
  let fp := fr.1
  let r2 := if r1.head? = some '.' then fr.2 else r1
  if ip = [] ∧ fp = [] then none
  else
    let ep : Bool × Bool × List Char × List Char :=
      match r2 with
      | 'e' :: '+' :: r => (true, false, (takeDigits r).1, (takeDigits r).2)
      | 'e' :: '-' :: r => (true, true, (takeDigits r).1, (takeDigits r).2)
      | 'e' :: r => (true, false, (takeDigits r).1, (takeDigits r).2)
      | 'E' :: '+' :: r => (true, false, (takeDigits r).1, (takeDigits r).2)
      | 'E' :: '-' :: r => (true, true, (takeDigits r).1, (takeDigits r).2)
      | 'E' :: r => (true, false, (takeDigits r).1, (takeDigits r).2)
      | _ => (false, false, [], r2)
    let hasExp := ep.1
    let expNeg := ep.2.1
    let expDigits := ep.2.2.1
    let r3 := ep.2.2.2
    if hasExp ∧ expDigits = [] then none
    else if hasExp = false ∧ ¬ r2 = [] then none
    else if hasExp ∧ ¬ r3 = [] then none
    else
      let ex : ℤ := if expNeg then -(digitsToNat expDigits : ℤ) else (digitsToNat expDigits : ℤ)
      let sign : Frac := if neg then ⟨-1, 1⟩ else ⟨1, 1⟩
      some (roundToDouble (fracMul sign (decimalValue ip fp ex)))

/-- Python `float(v)` for the values the pipeline can hold: numbers pass
through (an int is rounded to binary64, a bool maps to 0/1), strings are
parsed, everything else (`None`, lists, dicts) raises `TypeError`, which
every caller in `validators.py` catches. -/
def pyFloat : Json → Option Frac
  | .int n => some (roundToDouble (fracOfInt n))
  | .float q => some q
  | .bool b => some (if b then fracOfInt 1 else fracOfInt 0)
  | .str s => pyFloatOfString s
  | _ => none

/-- Decimal digits of a nonnegative integer fraction `n/d < 1` (long
division, up to 17 places). -/
def fracDigitsOf : Nat → Nat → Nat → List Char
  | 0, _, _ => []
  | fuel + 1, n, d =>
    if n = 0 then []
    else Nat.digitChar (n * 10 / d) :: fracDigitsOf fuel (n * 10 % d) d

/-- Python `repr` of an int. -/
def intRepr (n : ℤ) : String :=
  if n < 0 then "-" ++ Nat.repr n.natAbs else Nat.repr n.natAbs

/-- Python `repr` of a float, approximated as plain decimal notation
(shortest-roundtrip printing and e-notation are not modelled; the
validator only ever feeds this to a digit filter). -/
def floatRepr (q : Frac) : String :=
  let sign := if fracIsNeg q then "-" else ""
  let a := fracAbs q
  let f := fracFloor a
  let remN := a.num - f * a.den
  let fds := fracDigitsOf 17 remN.toNat a.den.toNat
  sign ++ Nat.repr f.toNat ++ "." ++ (if fds.isEmpty then "0" else (⟨fds⟩ : String))

mutual

/-- Python `repr(v)` (for strings: quoting without escape handling). -/
def pyRepr : Json → String
  | .null => "None"
  | .bool b => if b then "True" else "False"
  | .int n => intRepr n
  | .float q => floatRepr q
  | .str s => "'" ++ s ++ "'"
  | .arr xs => "[" ++ pyReprList xs ++ "]"
  | .obj kvs => "\x7b" ++ pyReprKvs kvs ++ "\x7d"

/-- `repr` of list elements, comma separated. -/
def pyReprList : List Json → String
  | [] => ""
  | [x] => pyRepr x
  | x :: y :: rest => pyRepr x ++ ", " ++ pyReprList (y :: rest)

/-- `repr` of dict entries, comma separated. -/
def pyReprKvs : List (String × Json) → String
  | [] => ""
  | [p] => "'" ++ p.1 ++ "': " ++ pyRepr p.2
  | p :: q :: rest => "'" ++ p.1 ++ "': " ++ pyRepr p.2 ++ ", " ++ pyReprKvs (q :: rest)

end

/-- Python `str(v)`: the string itself for strings, else `repr` (they
agree on `None`, bools, ints, floats, lists and dicts). -/
def pyStr : Json → String
  | .str s => s
  | v => pyRepr v

/-- `''.join(filter(str.isdigit, s))` (ASCII digits). -/
def pyDigits (s : String) : String := ⟨s.toList.filter Char.isDigit⟩

/-- `InvoiceValidator._clean_upc` (lines 209-216): empty for a falsy
value, else the digits of `str(upc)`. -/
def clean_upc (upc : Json) : String :=
  if ¬ truthy upc then "" else pyDigits (pyStr upc)

/-- `InvoiceValidator._is_valid_upc` (lines 195-207): falsy values are
invalid; otherwise strip non-digits from `str(upc)` and accept exactly
the lengths 8 and 12. -/
def is_valid_upc (upc : Json) : Bool :=
  if ¬ truthy upc then false
  else (pyDigits (pyStr upc)).length = 8 ∨ (pyDigits (pyStr upc)).length = 12

/-! ### The validator (`validators.py`)

A parsed record is the field list of the top-level dict. -/

/-- A Python dict as an association list in insertion order. -/
abbrev PyDict := List (String × Json)

/-- `d[k]` lookup (`None`-defaulting `d.get(k)` is `pyGet`). -/
def lookupKey : PyDict → String → Option Json
  | [], _ => none
  | p :: rest, k => if p.1 = k then some p.2 else lookupKey rest k

/-- `d.get(k)`: `None` when the key is absent. -/
def pyGet (d : PyDict) (k : String) : Json := (lookupKey d k).getD .null

/-- Whether `k in d`. -/
def hasKey (d : PyDict) (k : String) : Bool := d.any (fun p => p.1 = k)

/-- `item.get(k)` for a line item.  A non-dict item makes the real code
raise `AttributeError`; the model reads `None` there, and theorems about
item traversal therefore assume all items are dicts. -/
def itemGet (item : Json) (k : String) : Json :=
  match item with
  | .obj kvs => pyGet kvs k
  | _ => .null

/-- Whether every entry of the items list is a dict (the only states the
validator's item loops are defined on). -/
def allItemsDicts (items : List Json) : Bool := items.all isDict

/-- `data.get("items", [])`, on the states the pipeline produces (after
structure normalization a present `items` value is always a list). -/
def getItems (data : PyDict) : List Json :=
  match lookupKey data "items" with
  | some (.arr xs) => xs
  | _ => []

/-- One iteration of the section loop in `_validate_basic_structure`
(lines 62-65): a missing section is flagged and an empty dict is inserted
for it. -/
def sectionStep (st : PyDict × List String) (sec : String) : PyDict × List String :=
  if (lookupKey st.1 sec).isNone then
    (insertKey st.1 sec (Json.obj []), st.2 ++ ["missing_section: " ++ sec])
  else st

/-- The list check at the end of `_validate_basic_structure`
(lines 68-70): a non-list `items` value is flagged and replaced by `[]`. -/
def itemsListFix (st : PyDict × List String) : PyDict × List String :=
  match lookupKey st.1 "items" with
  | some (.arr _) => st
  | _ => (insertKey st.1 "items" (Json.arr []), st.2 ++ ["items_not_list"])

/-- `InvoiceValidator._validate_basic_structure` (lines 58-70): for each
required section missing from the dict, record `missing_section` and
insert an empty dict *into the argument itself*; then if the `items`
value is not a list, record `items_not_list` and replace it by `[]`.
Returns the mutated dict and the recorded flags. -/
def validate_basic_structure (data : PyDict) : PyDict × List String :=
  itemsListFix (["vendor", "invoice", "account", "items"].foldl sectionStep (data, []))

/-- The vendor-specific required-field lists of `_validate_lakeshore`,
`_validate_breakthru` and `_validate_southern_glazers` (lines 72-100);
`validate_invoice` runs no vendor check for any other vendor string. -/
def requiredFieldsFor (vendor : String) : List String :=
  if vendor = "lakeshore" then ["vendor_name", "invoice_number", "invoice_date"]
  else if vendor = "breakthru" then ["vendor_name", "invoice_number", "customer_number"]
  else if vendor = "southern_glazers" then ["vendor_name", "invoice_number", "account_number"]
  else []

/-- The `missing_required_field` flags of the three vendor validators:
one per required field whose `data.get(field)` is falsy. -/
def missingFieldFlags (data : PyDict) (fields : List String) : List String :=
  fields.filterMap (fun f =>
    if ¬ truthy (pyGet data f) then some ("missing_required_field: " ++ f) else none)

/-- One iteration of the item loop in `_validate_business_rules`
(lines 108-123): the UPC check, then the negative-quantity check. -/
def item_flags (i : Nat) (item : Json) : List String :=
  (if truthy (itemGet item "upc") ∧ ¬ is_valid_upc (itemGet item "upc") then
    ["invalid_upc_format: item_" ++ Nat.repr i]
   else []) ++
  (if ¬ isNoneLike (pyOr (itemGet item "qty")
      (pyOr (itemGet item "bottles") (itemGet item "cases"))) then
    match pyFloat (pyOr (itemGet item "qty")
        (pyOr (itemGet item "bottles") (itemGet item "cases"))) with
    | some q => if fracIsNeg q then ["negative_quantity: item_" ++ Nat.repr i] else []
    | none => []
   else [])

/-- The item loop of `_validate_business_rules`, enumerating from `i`. -/
def itemsFlagsFrom : Nat → List Json → List String
  | _, [] => []
  | i, it :: rest => item_flags i it ++ itemsFlagsFrom (i + 1) rest

/-- The item-sum loop of `_validate_totals` (lines 135-142):
`calculated_total` starts at `0` and accumulates
`float(extended_amount or net_amount)` in binary64, skipping `None`,
`"None"` and unparsable values. -/
def calculatedTotal (items : List Json) : Frac :=
  items.foldl
    (fun acc it =>
      if ¬ isNoneLike (pyOr (itemGet it "extended_amount") (itemGet it "net_amount")) then
        match pyFloat (pyOr (itemGet it "extended_amount") (itemGet it "net_amount")) with
        | some q => doubleAdd acc q
        | none => acc
      else acc)
    (fracOfInt 0)

/-- `InvoiceValidator._validate_totals` (lines 128-152): skip when there
are no items; compare the item sum with
`float(total_sales or gross_total)` against the `0.01` tolerance in
binary64, flagging `totals_mismatch`; flag `invalid_invoice_total` when
that value is present (not `None`/`"None"`) but does not parse. -/
def validate_totals (data : PyDict) : List String :=
  if (getItems data).isEmpty then []
  else
    if ¬ isNoneLike (pyOr (pyGet data "total_sales") (pyGet data "gross_total")) then
      match pyFloat (pyOr (pyGet data "total_sales") (pyGet data "gross_total")) with
      | some q =>
        if fracLt (roundToDouble ⟨1, 100⟩)
            (fracAbs (doubleSub (calculatedTotal (getItems data)) q)) then
          ["totals_mismatch"]
        else []
      | none => ["invalid_invoice_total"]
    else []

/-- `InvoiceValidator._validate_business_rules` (lines 102-126): when the
items list is nonempty, run the item loop and then the totals check. -/
def validate_business_rules (data : PyDict) : List String :=
  if ¬ (getItems data).isEmpty then
    itemsFlagsFrom 0 (getItems data) ++ validate_totals data
  else []

/-- The invoice-level numeric fields coerced by `_validate_data_types`. -/
def numericFields : List String :=
  ["total_sales", "total_discount", "gross_total", "net_amount",
   "pay_this_amount", "total_bottles", "total_liquor_gallons",
   "total_beer_gallons"]

/-- The item-level numeric fields coerced by `_validate_data_types`. -/
def numericItemFields : List String :=
  ["qty", "bottles", "cases", "unit_price", "discount",
   "extended_amount", "net_amount", "deposit"]

/-- One top-level numeric coercion (lines 165-171): a present, non-`None`
value is replaced by `float(value)`; on failure the field is flagged and
set to `None`. -/
def coerceField (st : PyDict × List String) (field : String) : PyDict × List String :=
  match lookupKey st.1 field with
  | some v =>
    if ¬ isNoneLike v then
      match pyFloat v with
      | some q => (insertKey st.1 field (.float q), st.2)
      | none => (insertKey st.1 field .null, st.2 ++ ["invalid_numeric_field: " ++ field])
    else st
  | none => st

/-- One item-level numeric coercion (lines 186-191): like `coerceField`
but failures are nulled silently, with no flag. -/
def coerceItemField (item : List (String × Json)) (field : String) : List (String × Json) :=
  match lookupKey item field with
  | some v =>
    if ¬ isNoneLike v then
      match pyFloat v with
      | some q => insertKey item field (.float q)
      | none => insertKey item field .null
    else item
  | none => item

/-- The per-item body of `_validate_data_types` (lines 175-191): rewrite
a truthy UPC to digits only, then coerce the numeric item fields.  The
item dict is mutated in place in the source; here the new value is
returned.  Non-dict items (which would raise) pass through unchanged. -/
def coerce_item : Json → Json
  | .obj kvs =>
    .obj (numericItemFields.foldl coerceItemField
      (match lookupKey kvs "upc" with
       | some u => if truthy u then insertKey kvs "upc" (.str (clean_upc u)) else kvs
       | none => kvs))
  | v => v

/-- `InvoiceValidator._validate_data_types` (lines 154-193).  The source
starts from the shallow copy `validated_data = data.copy()`, coerces the
top-level numeric fields on the copy, and then mutates each item dict of
the shared `items` list in place.  The model returns
`(validated_data, state of data after the call, flags)`: the second component is
the caller-visible state of the argument — its top-level fields are
untouched (assignments hit only the copy) but its `items` entries are the
coerced item dicts, because the shallow copy shares them. -/
def validate_data_types (data : PyDict) : PyDict × PyDict × List String :=
  match lookupKey (numericFields.foldl coerceField (data, [])).1 "items" with
  | some (.arr xs) =>
    (insertKey (numericFields.foldl coerceField (data, [])).1 "items"
       (.arr (xs.map coerce_item)),
     insertKey data "items" (.arr (xs.map coerce_item)),
     (numericFields.foldl coerceField (data, [])).2)
  | _ =>
    ((numericFields.foldl coerceField (data, [])).1, data,
     (numericFields.foldl coerceField (data, [])).2)

/-- Result of `validate_invoice`: the returned record, the caller-visible
state of the argument dict after the call, and the accumulated
`validation_flags`. -/
structure ValidationResult where
  result : PyDict
  inputAfter : PyDict
  flags : List String

/-- `InvoiceValidator.validate_invoice` (lines 19-56): reset the flag
list, normalize the structure (mutating the argument), run the vendor
check, the business rules and the type coercion, accumulating flags in
call order. -/
def validate_invoice (data : PyDict) (vendor : String) : ValidationResult :=
  ⟨(validate_data_types (validate_basic_structure data).1).1,
   (validate_data_types (validate_basic_structure data).1).2.1,
   (validate_basic_structure data).2
     ++ missingFieldFlags (validate_basic_structure data).1 (requiredFieldsFor vendor)
     ++ validate_business_rules (validate_basic_structure data).1
     ++ (validate_data_types (validate_basic_structure data).1).2.2⟩

/-! ### File validation and the `parse_invoice` guards
(`config.py` lines 136-159 and `invoice_parser.py` lines 30-46) -/

/-- The observable facts about a path that `Config.validate_file`
reads: existence, the `Path.suffix`, and the byte size. -/
structure PyFile where
  fileExists : Bool
  suffix : String
  sizeBytes : Nat

/-- The failures the front of `parse_invoice` can raise. -/
inductive ParseFailure where
  | fileNotFound
  | unsupportedFormat
  | fileTooLarge
  | unsupportedVendor

/-- `Config.supported_formats`. -/
def supportedFormats : List String := [".pdf", ".png", ".jpg", ".jpeg"]

/-- `Config.validate_file` (lines 136-159): existence, then
`suffix.lower()` against the supported formats, then the size limit in
megabytes (`MAX_FILE_SIZE_MB`, default 20). -/
def validate_file (maxFileSizeMb : Nat) (f : PyFile) : Except ParseFailure Unit :=
  if ¬ f.fileExists then .error .fileNotFound
  else if ¬ supportedFormats.contains (pyLower f.suffix) then .error .unsupportedFormat
  else if fracLt (fracOfInt maxFileSizeMb) (fracDiv (fracOfInt f.sizeBytes) (fracOfInt (1024 * 1024))) then .error .fileTooLarge
  else .ok ()

/-- The vendor whitelist of `parse_invoice` (line 43). -/
def supportedVendors : List String := ["lakeshore", "breakthru", "southern_glazers"]

/-- The entry guards of `InvoiceParser.parse_invoice` (lines 41-44):
`validate_file` first, then the vendor whitelist.  Everything after the
guards — image processing, the model call, JSON parsing and validation
(lines 48-95) — is abstracted as `pipeline`; the guards run before any of
it, so the result on a guard failure cannot depend on `pipeline`. -/
def parse_invoice (maxFileSizeMb : Nat) (f : PyFile) (vendor : String)
    (pipeline : Except ParseFailure Json) : Except ParseFailure Json :=
  match validate_file maxFileSizeMb f with
  | .error e => .error e
  | .ok _ =>
    if ¬ supportedVendors.contains vendor then .error .unsupportedVendor
    else pipeline

/-! ### Claim-side (specification) formulations

These definitions follow the words of the specification (and of the
amended claims), independently of the implementation shapes above; the
theorems relate the two. -/

/-- The first *present* field among `keys` (the reading "first present"
of the specification text, used to refute it). -/
def firstPresent (item : Json) (keys : List String) : Option Json :=
  keys.findSome? (fun k =>
    match item with
    | .obj kvs => lookupKey kvs k
    | _ => none)

/-- Python `or`-chain semantics as the specification's amended wording
states it: the first truthy value, falling back to the last value when
none is truthy (and `None` for an empty chain). -/
def firstTruthy : List Json → Json
  | [] => .null
  | [v] => v
  | v :: w :: rest => if truthy v then v else firstTruthy (w :: rest)

/-- Amended-claim contribution of one item to the totals sum: the
binary64 parse of its quantity chain value, when it parses. -/
def specItemAmount (item : Json) : Option Frac :=
  pyFloat (firstTruthy [itemGet item "extended_amount", itemGet item "net_amount"])

/-- Amended-claim item sum: binary64 accumulation over the parsable
contributions, in order. -/
def specItemsSum (items : List Json) : Frac :=
  (items.filterMap specItemAmount).foldl doubleAdd (fracOfInt 0)

/-- Amended-claim invoice-level total: first truthy of
`total_sales`, `gross_total`. -/
def specInvoiceTotal (data : PyDict) : Json :=
  firstTruthy [pyGet data "total_sales", pyGet data "gross_total"]

/-- Amended-claim negative-quantity condition for one item: the first
truthy of `qty`, `bottles`, `cases` parses as a number and is negative. -/
def specNegativeQty (item : Json) : Bool :=
  match pyFloat (firstTruthy [itemGet item "qty", itemGet item "bottles", itemGet item "cases"]) with
  | some q => fracIsNeg q
  | none => false

/-- Decimal digits of `n`, most significant first (proof-side companion
of `Nat.repr`, used to reason about the `item_{i}` flag indices). -/
def myDigits (n : Nat) : List Char :=
  if n < 10 then [Nat.digitChar n]
  else myDigits (n / 10) ++ [Nat.digitChar (n % 10)]
termination_by n
decreasing_by exact Nat.div_lt_self (by omega) (by norm_num)

/-! ## Theorems

First a toolbox: decimal rendering is injective (so the `item_{i}` flag
strings determine the item index), dict lookup/insert laws, and the
decomposition laws of the validator loops. -/

lemma digitsToNat_snoc (xs : List Char) (c : Char) :
    digitsToNat (xs ++ [c]) = 10 * digitsToNat xs + (c.toNat - 48) := by
  unfold digitsToNat
  rw [List.foldl_append]
  simp [Nat.mul_comm]

lemma digitChar_val : ∀ d, d < 10 → (Nat.digitChar d).toNat - 48 = d := by decide

lemma myDigits_val (n : Nat) : digitsToNat (myDigits n) = n := by
  induction n using Nat.strong_induction_on with
  | _ n ih =>
    unfold myDigits
    by_cases h : n < 10
    · simp [h, digitsToNat, digitChar_val n h]
    · rw [if_neg h, digitsToNat_snoc, ih (n / 10) (Nat.div_lt_self (by omega) (by norm_num)),
        digitChar_val _ (Nat.mod_lt _ (by norm_num))]
      omega

lemma myDigits_injective : Function.Injective myDigits := by
  intro a b h
  have := congrArg digitsToNat h
  rwa [myDigits_val, myDigits_val] at this

lemma toDigitsCore_eq (fuel : Nat) : ∀ n ds, n < fuel →
    Nat.toDigitsCore 10 fuel n ds = myDigits n ++ ds := by
  induction fuel with
  | zero => intro n ds h; omega
  | succ fuel ih =>
    intro n ds h
    rw [Nat.toDigitsCore]
    by_cases h10 : n / 10 = 0
    · have hn : n < 10 := by omega
      rw [if_pos h10]
      unfold myDigits
      rw [if_pos hn, Nat.mod_eq_of_lt hn]
      simp
    · rw [if_neg h10]
      have hlt : n / 10 < fuel := by
        have := Nat.div_lt_self (by omega : 0 < n) (by norm_num : 1 < 10)
        omega
      rw [ih (n / 10) _ hlt]
      conv_rhs => unfold myDigits
      have hn : ¬ n < 10 := by omega
      rw [if_neg hn]
      simp

lemma natRepr_injective : Function.Injective Nat.repr := by
  intro a b h
  unfold Nat.repr at h
  have h2 : Nat.toDigits 10 a = Nat.toDigits 10 b := by
    have := congrArg String.data h
    simpa [List.asString] using this
  unfold Nat.toDigits at h2
  rw [toDigitsCore_eq _ _ _ (Nat.lt_succ_self a), toDigitsCore_eq _ _ _ (Nat.lt_succ_self b)] at h2
  simp at h2
  exact myDigits_injective h2

lemma string_data_inj {a b : String} (h : a.data = b.data) : a = b :=
  String.ext h

lemma append_repr_injective (p : String) (i j : Nat) (h : p ++ Nat.repr i = p ++ Nat.repr j) :
    i = j := by
  have h2 := congrArg String.data h
  rw [String.data_append, String.data_append] at h2
  exact natRepr_injective (string_data_inj (List.append_cancel_left h2))

lemma neg_flag_ne_upc_flag (i j : Nat) :
    ("negative_quantity: item_" ++ Nat.repr i) ≠ ("invalid_upc_format: item_" ++ Nat.repr j) := by
  intro h
  have h2 : (some 'n' : Option Char) = some 'i' := congrArg (fun s => s.data.get? 0) h
  exact absurd h2 (by decide)

lemma neg_flag_ne_totals (i : Nat) :
    ("negative_quantity: item_" ++ Nat.repr i) ≠ "totals_mismatch" := by
  intro h
  have h2 : (some 'n' : Option Char) = some 't' := congrArg (fun s => s.data.get? 0) h
  exact absurd h2 (by decide)

lemma neg_flag_ne_inv_total (i : Nat) :
    ("negative_quantity: item_" ++ Nat.repr i) ≠ "invalid_invoice_total" := by
  intro h
  have h2 : (some 'n' : Option Char) = some 'i' := congrArg (fun s => s.data.get? 0) h
  exact absurd h2 (by decide)

lemma upc_flag_ne_neg_flag (i j : Nat) :
    ("invalid_upc_format: item_" ++ Nat.repr i) ≠ ("negative_quantity: item_" ++ Nat.repr j) := by
  intro h
  have h2 : (some 'i' : Option Char) = some 'n' := congrArg (fun s => s.data.get? 0) h
  exact absurd h2 (by decide)

lemma upc_flag_ne_totals (i : Nat) :
    ("invalid_upc_format: item_" ++ Nat.repr i) ≠ "totals_mismatch" := by
  intro h
  have h2 : (some 'i' : Option Char) = some 't' := congrArg (fun s => s.data.get? 0) h
  exact absurd h2 (by decide)

lemma upc_flag_ne_inv_total (i : Nat) :
    ("invalid_upc_format: item_" ++ Nat.repr i) ≠ "invalid_invoice_total" := by
  intro h
  have h2 : (some 'u' : Option Char) = some 'i' := congrArg (fun s => s.data.get? 8) h
  exact absurd h2 (by decide)

lemma lookupKey_append (d e : PyDict) (k : String) :
    lookupKey (d ++ e) k =
      match lookupKey d k with
      | some x => some x
      | none => lookupKey e k := by
  induction d with
  | nil => rfl
  | cons p rest ih =>
    show lookupKey (p :: (rest ++ e)) k = _
    rw [lookupKey, lookupKey]
    by_cases hp : p.1 = k
    · simp [hp]
    · simp only [if_neg hp]
      exact ih

lemma lookupKey_map_ne (d : PyDict) (k k2 : String) (v : Json) (h : ¬ k2 = k) :
    lookupKey (d.map (fun p => if p.1 = k then (k, v) else p)) k2 = lookupKey d k2 := by
  induction d with
  | nil => rfl
  | cons p rest ih =>
    simp only [List.map]
    by_cases hp : p.1 = k
    · rw [if_pos hp, lookupKey, lookupKey, if_neg (fun hh : k = k2 => h hh.symm),
        if_neg (fun hh : p.1 = k2 => h (hp ▸ hh).symm)]
      exact ih
    · rw [if_neg hp, lookupKey, lookupKey]
      by_cases hk : p.1 = k2
      · rw [if_pos hk, if_pos hk]
      · rw [if_neg hk, if_neg hk]
        exact ih

lemma lookupKey_map_self (d : PyDict) (k : String) (v : Json)
    (h : d.any (fun p => p.1 = k) = true) :
    lookupKey (d.map (fun p => if p.1 = k then (k, v) else p)) k = some v := by
  induction d with
  | nil => simp at h
  | cons p rest ih =>
    simp only [List.map]
    by_cases hp : p.1 = k
    · rw [if_pos hp, lookupKey, if_pos rfl]
    · rw [if_neg hp, lookupKey, if_neg hp]
      apply ih
      simp only [List.any_cons, Bool.or_eq_true, decide_eq_true_eq] at h
      rcases h with h | h
      · exact absurd h hp
      · exact h

lemma lookupKey_none_of_not_any (d : PyDict) (k : String)
    (h : d.any (fun p => p.1 = k) = false) :
    lookupKey d k = none := by
  induction d with
  | nil => rfl
  | cons p rest ih =>
    simp only [List.any_cons, Bool.or_eq_false_iff, decide_eq_false_iff_not] at h
    rw [lookupKey, if_neg h.1]
    exact ih (by simp [h.2])

lemma lookupKey_insertKey (d : PyDict) (k k2 : String) (v : Json) :
    lookupKey (insertKey d k v) k2 = if k2 = k then some v else lookupKey d k2 := by
  unfold insertKey
  by_cases h : d.any (fun p => p.1 = k)
  · rw [if_pos h]
    by_cases hk : k2 = k
    · subst hk
      rw [lookupKey_map_self d k2 v h, if_pos rfl]
    · rw [lookupKey_map_ne d k k2 v hk, if_neg hk]
  · rw [if_neg h, lookupKey_append]
    by_cases hk : k2 = k
    · subst hk
      rw [lookupKey_none_of_not_any d k2 (by revert h; cases d.any (fun p => p.1 = k2) <;> simp)]
      simp [lookupKey]
    · rw [if_neg hk]
      cases hl : lookupKey d k2 with
      | some x => rfl
      | none =>
        show lookupKey [(k, v)] k2 = none
        rw [lookupKey, if_neg (fun hh : k = k2 => hk hh.symm)]
        rfl

lemma sectionStep_id (st : PyDict × List String) (sec : String) (v : Json)
    (h : lookupKey st.1 sec = some v) : sectionStep st sec = st := by
  unfold sectionStep
  rw [h]
  rfl

lemma sectionStep_lookup_none (st : PyDict × List String) (sec k : String)
    (h : lookupKey st.1 sec = none) :
    lookupKey (sectionStep st sec).1 k =
      if k = sec then some (.obj []) else lookupKey st.1 k := by
  unfold sectionStep
  rw [h]
  simp only [Option.isNone_none, if_true]
  exact lookupKey_insertKey st.1 sec k (.obj [])

lemma sectionStep_flags_mono (st : PyDict × List String) (sec : String) (x : String)
    (h : x ∈ st.2) : x ∈ (sectionStep st sec).2 := by
  unfold sectionStep
  split
  · exact List.mem_append_left _ h
  · exact h

lemma foldl_sectionStep_flags_mono (secs : List String) (st : PyDict × List String)
    (x : String) (h : x ∈ st.2) : x ∈ (secs.foldl sectionStep st).2 := by
  induction secs generalizing st with
  | nil => exact h
  | cons sec rest ih =>
    rw [List.foldl_cons]
    exact ih _ (sectionStep_flags_mono st sec x h)

lemma foldl_sectionStep_preserve (secs : List String) (st : PyDict × List String)
    (k : String) (v : Json) (h : lookupKey st.1 k = some v) :
    lookupKey (secs.foldl sectionStep st).1 k = some v := by
  induction secs generalizing st with
  | nil => exact h
  | cons sec rest ih =>
    rw [List.foldl_cons]
    apply ih
    cases hl : lookupKey st.1 sec with
    | some w => rw [sectionStep_id st sec w hl]; exact h
    | none =>
      rw [sectionStep_lookup_none st sec k hl]
      have hk : ¬ k = sec := by
        intro hh
        rw [hh, hl] at h
        cases h
      rw [if_neg hk]
      exact h

lemma foldl_sectionStep_insert (secs : List String) (st : PyDict × List String)
    (k : String) (hk : k ∈ secs) (h : lookupKey st.1 k = none) :
    ("missing_section: " ++ k) ∈ (secs.foldl sectionStep st).2 ∧
    lookupKey (secs.foldl sectionStep st).1 k = some (.obj []) := by
  induction secs generalizing st with
  | nil => cases hk
  | cons sec rest ih =>
    rw [List.foldl_cons]
    by_cases hsec : k = sec
    · subst hsec
      have hstep1 : lookupKey (sectionStep st k).1 k = some (.obj []) := by
        rw [sectionStep_lookup_none st k k h, if_pos rfl]
      have hstep2 : ("missing_section: " ++ k) ∈ (sectionStep st k).2 := by
        unfold sectionStep
        rw [h]
        simp
      exact ⟨foldl_sectionStep_flags_mono rest _ _ hstep2,
        foldl_sectionStep_preserve rest _ _ _ hstep1⟩
    · have hrest : k ∈ rest := by
        rcases List.mem_cons.mp hk with h1 | h1
        · exact absurd h1 hsec
        · exact h1
      refine ih (sectionStep st sec) hrest ?_
      cases hl : lookupKey st.1 sec with
      | some w => rw [sectionStep_id st sec w hl]; exact h
      | none => rw [sectionStep_lookup_none st sec k hl, if_neg hsec]; exact h

lemma foldl_sectionStep_other (secs : List String) (st : PyDict × List String)
    (k : String) (hk : k ∉ secs) :
    lookupKey (secs.foldl sectionStep st).1 k = lookupKey st.1 k := by
  induction secs generalizing st with
  | nil => rfl
  | cons sec rest ih =>
    rw [List.foldl_cons, ih _ (fun hh => hk (List.mem_cons_of_mem _ hh))]
    cases hl : lookupKey st.1 sec with
    | some w => rw [sectionStep_id st sec w hl]
    | none =>
      rw [sectionStep_lookup_none st sec k hl,
        if_neg (fun hh => hk (by rw [hh]; exact List.mem_cons_self sec rest))]

lemma validate_basic_structure_missing_items (data : PyDict)
    (h : lookupKey data "items" = none) :
    "missing_section: items" ∈ (validate_basic_structure data).2 ∧
    "items_not_list" ∈ (validate_basic_structure data).2 ∧
    lookupKey (validate_basic_structure data).1 "items" = some (.arr []) := by
  unfold validate_basic_structure itemsListFix
  have hins := foldl_sectionStep_insert ["vendor", "invoice", "account", "items"]
    (data, []) "items" (by simp) h
  rw [hins.2]
  refine ⟨List.mem_append_left _ hins.1, List.mem_append_right _ (by simp), ?_⟩
  rw [lookupKey_insertKey]
  simp

lemma coerceField_lookup_ne (st : PyDict × List String) (field k : String)
    (h : ¬ k = field) :
    lookupKey (coerceField st field).1 k = lookupKey st.1 k := by
  unfold coerceField
  cases lookupKey st.1 field with
  | none => rfl
  | some v =>
    by_cases hn : isNoneLike v = true
    · simp [hn]
    · simp only [hn, Bool.not_eq_true]
      cases pyFloat v <;> simp [lookupKey_insertKey, h, hn]

lemma foldl_coerceField_lookup (fields : List String) (st : PyDict × List String)
    (k : String) (h : k ∉ fields) :
    lookupKey (fields.foldl coerceField st).1 k = lookupKey st.1 k := by
  induction fields generalizing st with
  | nil => rfl
  | cons f rest ih =>
    rw [List.foldl_cons, ih _ (fun hh => h (List.mem_cons_of_mem _ hh)),
      coerceField_lookup_ne st f k (fun hh => h (hh ▸ List.mem_cons_self f rest))]

lemma validate_invoice_flags (data : PyDict) (vendor : String) :
    (validate_invoice data vendor).flags =
      (validate_basic_structure data).2 ++
        missingFieldFlags (validate_basic_structure data).1 (requiredFieldsFor vendor) ++
        validate_business_rules (validate_basic_structure data).1 ++
        (validate_data_types (validate_basic_structure data).1).2.2 := rfl

lemma validate_invoice_result (data : PyDict) (vendor : String) :
    (validate_invoice data vendor).result =
      (validate_data_types (validate_basic_structure data).1).1 := by
  cases h1 : validate_basic_structure data with
  | mk d1 f1 =>
    unfold validate_invoice
    rw [h1]

lemma validate_invoice_inputAfter (data : PyDict) (vendor : String) :
    (validate_invoice data vendor).inputAfter =
      (validate_data_types (validate_basic_structure data).1).2.1 := by
  cases h1 : validate_basic_structure data with
  | mk d1 f1 =>
    unfold validate_invoice
    rw [h1]

lemma validate_data_types_items (d1 : PyDict) (xs : List Json)
    (h : lookupKey d1 "items" = some (.arr xs)) :
    validate_data_types d1 =
      (insertKey (numericFields.foldl coerceField (d1, [])).1 "items"
          (.arr (xs.map coerce_item)),
       insertKey d1 "items" (.arr (xs.map coerce_item)),
       (numericFields.foldl coerceField (d1, [])).2) := by
  unfold validate_data_types
  have hf : lookupKey (numericFields.foldl coerceField (d1, [])).1 "items" =
      some (.arr xs) := by
    rw [foldl_coerceField_lookup _ _ _ (by decide)]
    exact h
  rw [hf]

/-- C9 (implicit): when the input mapping has no `items` key, basic
structure validation first inserts the empty *dict* default — which then
fails the list check — so both `missing_section: items` and
`items_not_list` are recorded, and the returned record's `items` is the
empty list. -/
theorem missing_items_yields_both_flags (data : PyDict) (vendor : String)
    (h : lookupKey data "items" = none) :
    "missing_section: items" ∈ (validate_invoice data vendor).flags ∧
    "items_not_list" ∈ (validate_invoice data vendor).flags ∧
    lookupKey (validate_invoice data vendor).result "items" = some (.arr []) := by
  have hbs := validate_basic_structure_missing_items data h
  rw [validate_invoice_flags, validate_invoice_result]
  refine ⟨?_, ?_, ?_⟩
  · exact List.mem_append_left _ (List.mem_append_left _ (List.mem_append_left _ hbs.1))
  · exact List.mem_append_left _ (List.mem_append_left _ (List.mem_append_left _ hbs.2.1))
  · cases h1 : validate_basic_structure data with
    | mk d1 f1 =>
      rw [h1] at hbs
      rw [validate_data_types_items d1 [] hbs.2.2]
      rw [lookupKey_insertKey]
      simp

/-- Witness for C9: the empty record gets both flags and an empty items
list. -/
theorem missing_items_yields_both_flags_witness :
    "missing_section: items" ∈ (validate_invoice [] "lakeshore").flags ∧
    "items_not_list" ∈ (validate_invoice [] "lakeshore").flags ∧
    lookupKey (validate_invoice [] "lakeshore").result "items" = some (.arr []) :=
  missing_items_yields_both_flags [] "lakeshore" rfl

lemma mem_of_containsSub (pat s : List Char) (c : Char) (hc : c ∈ pat)
    (h : containsSub pat s = true) : c ∈ s := by
  unfold containsSub pyFind at h
  cases hocc : occurrences pat s with
  | nil => rw [hocc] at h; simp at h
  | cons i rest =>
    have hi : i ∈ occurrences pat s := by rw [hocc]; exact List.mem_cons_self i rest
    unfold occurrences at hi
    have hpref := (List.mem_filter.mp hi).2
    have : c ∈ s.drop i :=
      ((List.isPrefixOf_iff_prefix.mp hpref).sublist.subset) hc
    exact List.mem_of_mem_drop this

lemma containsSub_eq_false (pat s : List Char) (c : Char) (hc : c ∈ pat)
    (h : c ∉ s) : containsSub pat s = false := by
  cases hcs : containsSub pat s with
  | false => rfl
  | true => exact absurd (mem_of_containsSub pat s c hc hcs) h

lemma pyFind_eq_none (pat s : List Char) (c : Char) (hc : c ∈ pat) (h : c ∉ s) :
    pyFind pat s = none := by
  have := containsSub_eq_false pat s c hc h
  unfold containsSub at this
  cases hf : pyFind pat s with
  | none => rfl
  | some i => rw [hf] at this; simp at this

lemma fixBraces_eq (s : List Char) :
    fixBraces s = s ++ List.replicate (countChar '{' s - countChar '}' s) '}' := by
  unfold fixBraces
  split
  · rfl
  · rename_i hgt
    have : countChar '{' s - countChar '}' s = 0 := by omega
    rw [this]
    simp

lemma getLast?_append_replicate (s : List Char) (c : Char) (d : Nat)
    (he : s.getLast? = some c) :
    (s ++ List.replicate d c).getLast? = some c := by
  cases d with
  | zero => simpa using he
  | succ d2 =>
    rw [List.getLast?_append_of_ne_nil]
    · clear he
      induction d2 with
      | zero => rfl
      | succ d3 ih => simpa [List.replicate] using ih
    · simp

lemma fixDangling_id (s : List Char) (hq : '"' ∉ s) : fixDangling s = s := by
  unfold fixDangling
  rw [containsSub_eq_false ['"'] s '"' (by simp) hq]
  simp

lemma fixItems_id (s : List Char) (hq : '"' ∉ s) : fixItems s = s := by
  unfold fixItems
  rw [pyFind_eq_none ("\"items\": [".toList) s '"' (by decide) hq]

lemma fixBrackets_id (s : List Char) (hk : countChar '[' s = countChar ']' s) :
    fixBrackets s = s := by
  unfold fixBrackets
  rw [if_neg (by omega)]

lemma fixEnding_id (s : List Char) (he : s.getLast? = some '}') : fixEnding s = s := by
  unfold fixEnding
  rw [if_neg (by rw [he]; simp)]

/-- Counterexample to C3: the repaired text is not always balanced — on
the (invalid, hence repair-reaching) input `]` the final
ensure-ends-with-brace step appends a lone `}`, yielding `]}` with one
closing and no opening object delimiter. -/
theorem fix_output_unbalanced :
    loads "]".toList = none ∧
    countChar '{' (fix_json_response "]".toList) ≠
      countChar '}' (fix_json_response "]".toList) ∧
    countChar '[' (fix_json_response "]".toList) ≠
      countChar ']' (fix_json_response "]".toList) :=
  ⟨rfl, by decide, by decide⟩

/-- C3 as amended: the repair output is balanced for inputs with no
double quote (so the dangling-field and item-array repairs do not fire),
ending in `}` (so the final append step does not fire), with no excess of
closing braces and equal bracket counts: on those the repair consists of
the brace-balancing step alone, which appends exactly the missing
closers. -/
theorem fix_balance_under_conditions (s : List Char)
    (hq : '"' ∉ s) (he : s.getLast? = some '}')
    (hb : countChar '}' s ≤ countChar '{' s)
    (hk : countChar '[' s = countChar ']' s) :
    countChar '{' (fix_json_response s) = countChar '}' (fix_json_response s) ∧
    countChar '[' (fix_json_response s) = countChar ']' (fix_json_response s) := by
  have h1 : fixBraces s = s ++ List.replicate (countChar '{' s - countChar '}' s) '}' :=
    fixBraces_eq s
  have hq1 : '"' ∉ fixBraces s := by
    rw [h1]
    intro hmem
    rcases List.mem_append.mp hmem with hmem | hmem
    · exact hq hmem
    · have := List.eq_of_mem_replicate hmem
      cases this
  have hcount : ∀ c : Char, countChar c (fixBraces s) =
      countChar c s + if ('}' == c) then countChar '{' s - countChar '}' s else 0 := by
    intro c
    rw [h1]
    unfold countChar
    rw [List.count_append, List.count_replicate]
  have he1 : (fixBraces s).getLast? = some '}' := by
    rw [h1]
    exact getLast?_append_replicate s '}' _ he
  have hk1 : countChar '[' (fixBraces s) = countChar ']' (fixBraces s) := by
    rw [hcount '[', hcount ']']
    simp [hk]
  have hbrace : countChar '{' (fixBraces s) = countChar '}' (fixBraces s) := by
    rw [hcount '{', hcount '}']
    simp
    omega
  unfold fix_json_response
  rw [fixDangling_id _ hq1, fixItems_id _ hq1, fixBrackets_id _ hk1, fixEnding_id _ he1]
  exact ⟨hbrace, hk1⟩

/-- Witness for C3's amended theorem: `{{x: 1}` satisfies the conditions
and the repaired text is balanced. -/
theorem fix_balance_under_conditions_witness :
    '"' ∉ "\x7b\x7bx: 1\x7d".toList ∧
    countChar '{' (fix_json_response "\x7b\x7bx: 1\x7d".toList) =
      countChar '}' (fix_json_response "\x7b\x7bx: 1\x7d".toList) ∧
    countChar '[' (fix_json_response "\x7b\x7bx: 1\x7d".toList) =
      countChar ']' (fix_json_response "\x7b\x7bx: 1\x7d".toList) :=
  ⟨by decide,
   (fix_balance_under_conditions "\x7b\x7bx: 1\x7d".toList (by decide) (by decide)
     (by decide) (by decide)).1,
   (fix_balance_under_conditions "\x7b\x7bx: 1\x7d".toList (by decide) (by decide)
     (by decide) (by decide)).2⟩

lemma pyOr_pair (a b : Json) : firstTruthy [a, b] = pyOr a b := rfl

lemma pyOr_triple (a b c : Json) : firstTruthy [a, b, c] = pyOr a (pyOr b c) := rfl

lemma pyFloat_of_isNoneLike (v : Json) (h : isNoneLike v = true) : pyFloat v = none := by
  cases v with
  | null => rfl
  | str s =>
    have hs : s = "None" := by simpa [isNoneLike] using h
    rw [hs]
    rfl
  | _ => simp [isNoneLike] at h

lemma mem_itemsFlagsFrom (x : String) (i0 : Nat) (xs : List Json) :
    x ∈ itemsFlagsFrom i0 xs ↔
      ∃ k, ∃ hk : k < xs.length, x ∈ item_flags (i0 + k) xs[k] := by
  induction xs generalizing i0 with
  | nil =>
    simp [itemsFlagsFrom]
  | cons it rest ih =>
    rw [itemsFlagsFrom, List.mem_append, ih (i0 + 1)]
    constructor
    · rintro (h | ⟨k, hk, h⟩)
      · exact ⟨0, by simp, by simpa using h⟩
      · exact ⟨k + 1, by simpa using hk, by
          simpa [Nat.add_comm, Nat.add_assoc, Nat.add_left_comm] using h⟩
    · rintro ⟨k, hk, h⟩
      cases k with
      | zero => exact Or.inl (by simpa using h)
      | succ k2 =>
        refine Or.inr ⟨k2, by simpa using hk, ?_⟩
        simpa [Nat.add_comm, Nat.add_assoc, Nat.add_left_comm] using h

lemma neg_mem_item_flags (i j : Nat) (item : Json) :
    ("negative_quantity: item_" ++ Nat.repr j) ∈ item_flags i item ↔
      j = i ∧ specNegativeQty item = true := by
  unfold item_flags specNegativeQty
  rw [pyOr_triple, List.mem_append]
  have hupc : ∀ P : Prop, [Decidable P] →
      ("negative_quantity: item_" ++ Nat.repr j) ∈
        (if P then ["invalid_upc_format: item_" ++ Nat.repr i] else ([] : List String)) ↔
        False := by
    intro P hP
    split
    · simp only [List.mem_singleton, iff_false]
      exact neg_flag_ne_upc_flag j i
    · simp
  rw [hupc]
  cases hfl : pyFloat (pyOr (itemGet item "qty")
      (pyOr (itemGet item "bottles") (itemGet item "cases"))) with
  | none =>
    constructor
    · rintro (h | h)
      · exact h.elim
      · revert h
        split
        · simp
        · simp
    · rintro ⟨_, hs⟩
      simp at hs
  | some q =>
    have hnl : isNoneLike (pyOr (itemGet item "qty")
        (pyOr (itemGet item "bottles") (itemGet item "cases"))) = false := by
      cases hx : isNoneLike (pyOr (itemGet item "qty")
          (pyOr (itemGet item "bottles") (itemGet item "cases"))) with
      | false => rfl
      | true => rw [pyFloat_of_isNoneLike _ hx] at hfl; cases hfl
    rw [hnl]
    simp only [Bool.false_eq_true, not_false_eq_true, if_true, false_or]
    cases hneg : fracIsNeg q with
    | true =>
      rw [if_pos rfl]
      constructor
      · intro h
        exact ⟨append_repr_injective _ _ _ (List.mem_singleton.mp h), rfl⟩
      · rintro ⟨hji, _⟩
        subst hji
        exact List.mem_singleton.mpr rfl
    | false =>
      rw [if_neg (by simp [hneg])]
      simp

lemma upc_mem_item_flags (i j : Nat) (item : Json) :
    ("invalid_upc_format: item_" ++ Nat.repr j) ∈ item_flags i item ↔
      j = i ∧ truthy (itemGet item "upc") = true ∧
        is_valid_upc (itemGet item "upc") = false := by
  unfold item_flags
  rw [List.mem_append]
  have hneg : ("invalid_upc_format: item_" ++ Nat.repr j) ∈
      (if ¬ isNoneLike (pyOr (itemGet item "qty")
          (pyOr (itemGet item "bottles") (itemGet item "cases"))) = true then
        match pyFloat (pyOr (itemGet item "qty")
            (pyOr (itemGet item "bottles") (itemGet item "cases"))) with
        | some q => if fracIsNeg q = true then ["negative_quantity: item_" ++ Nat.repr i] else []
        | none => []
       else ([] : List String)) ↔ False := by
    simp only [iff_false]
    split
    · cases pyFloat (pyOr (itemGet item "qty")
          (pyOr (itemGet item "bottles") (itemGet item "cases"))) with
      | none => intro h; cases h
      | some q =>
        intro h
        have h2 : ("invalid_upc_format: item_" ++ Nat.repr j) ∈
            (if fracIsNeg q = true then ["negative_quantity: item_" ++ Nat.repr i]
             else ([] : List String)) := h
        by_cases hn : fracIsNeg q = true
        · rw [if_pos hn] at h2
          exact upc_flag_ne_neg_flag j i (List.mem_singleton.mp h2)
        · rw [if_neg hn] at h2
          cases h2
    · intro h
      cases h
  rw [hneg, or_false]
  split
  · rename_i hcond
    constructor
    · intro h
      refine ⟨append_repr_injective _ _ _ (List.mem_singleton.mp h), hcond.1, ?_⟩
      cases hv : is_valid_upc (itemGet item "upc") with
      | false => rfl
      | true => exact absurd hv (by simpa using hcond.2)
    · rintro ⟨hji, _, _⟩
      subst hji
      exact List.mem_singleton.mpr rfl
  · rename_i hcond
    constructor
    · intro h
      cases h
    · rintro ⟨hji, htr, hinv⟩
      exact absurd ⟨htr, by simp [hinv]⟩ hcond

lemma getItems_nonempty_of_index (data : PyDict) (j : Nat)
    (hj : j < (getItems data).length) : ¬ (getItems data).isEmpty = true := by
  intro hemp
  rw [List.isEmpty_iff] at hemp
  rw [hemp] at hj
  cases hj

lemma validate_totals_cases (data : PyDict) :
    validate_totals data = [] ∨ validate_totals data = ["totals_mismatch"] ∨
      validate_totals data = ["invalid_invoice_total"] := by
  unfold validate_totals
  split
  · exact Or.inl rfl
  · split
    · split
      · split
        · exact Or.inr (Or.inl rfl)
        · exact Or.inl rfl
      · exact Or.inr (Or.inr rfl)
    · exact Or.inl rfl

lemma neg_flag_not_mem_totals (j : Nat) (data : PyDict) :
    ("negative_quantity: item_" ++ Nat.repr j) ∉ validate_totals data := by
  rcases validate_totals_cases data with h | h | h <;> rw [h]
  · simp
  · simp only [List.mem_singleton]
    exact neg_flag_ne_totals j
  · simp only [List.mem_singleton]
    exact neg_flag_ne_inv_total j

lemma upc_flag_not_mem_totals (j : Nat) (data : PyDict) :
    ("invalid_upc_format: item_" ++ Nat.repr j) ∉ validate_totals data := by
  rcases validate_totals_cases data with h | h | h <;> rw [h]
  · simp
  · simp only [List.mem_singleton]
    exact upc_flag_ne_totals j
  · simp only [List.mem_singleton]
    exact upc_flag_ne_inv_total j

/-- Counterexample to C7: on the item `{"qty": 0, "bottles": -5}` the
first *present* quantity field is `0` (not negative, so the claim as
stated records nothing), yet the code's `or`-chain skips the falsy `0`
and flags `negative_quantity: item_0`. -/
theorem neg_qty_first_present_counterexample :
    firstPresent (Json.obj [("qty", Json.int 0), ("bottles", Json.int (-5))])
        ["qty", "bottles", "cases"] = some (Json.int 0) ∧
    fracIsNeg (roundToDouble (fracOfInt 0)) = false ∧
    validate_business_rules
        [("items", Json.arr [Json.obj [("qty", Json.int 0), ("bottles", Json.int (-5))]])] =
      ["negative_quantity: item_0"] :=
  ⟨rfl, rfl, rfl⟩

/-- C7 as amended: for every record whose items are all dicts,
`negative_quantity: item_{j}` is recorded exactly when the first *truthy*
value of the item's `qty`/`bottles`/`cases` chain (Python `or`
semantics, falling back to the `cases` value when all are falsy) parses
as a number and is negative; non-numeric values (including `None` and
the string `"None"`) are skipped silently. -/
theorem negative_quantity_flag_iff (data : PyDict) (j : Nat)
    (hj : j < (getItems data).length)
    (hdicts : allItemsDicts (getItems data) = true) :
    ("negative_quantity: item_" ++ Nat.repr j) ∈ validate_business_rules data ↔
      specNegativeQty (getItems data)[j] = true := by
  unfold validate_business_rules
  rw [if_pos (getItems_nonempty_of_index data j hj)]
  rw [List.mem_append]
  constructor
  · rintro (h | h)
    · rw [mem_itemsFlagsFrom] at h
      obtain ⟨k, hk, hmem⟩ := h
      rw [neg_mem_item_flags] at hmem
      obtain ⟨hjk, hspec⟩ := hmem
      have : k = j := by omega
      subst this
      exact hspec
    · exact absurd h (neg_flag_not_mem_totals j data)
  · intro hspec
    refine Or.inl ?_
    rw [mem_itemsFlagsFrom]
    exact ⟨j, hj, (neg_mem_item_flags _ j _).mpr ⟨by omega, hspec⟩⟩

/-- Witness for C7's amended theorem: in `{"qty": 0, "bottles": -2}` the
chain skips the falsy `0`, reaches `-2` and the item is flagged. -/
theorem negative_quantity_flag_iff_witness :
    ("negative_quantity: item_" ++ Nat.repr 0) ∈ validate_business_rules
      [("items", Json.arr [Json.obj [("qty", Json.int 0), ("bottles", Json.int (-2))]])] :=
  (negative_quantity_flag_iff
      [("items", Json.arr [Json.obj [("qty", Json.int 0), ("bottles", Json.int (-2))]])]
      0 (by decide) (by decide)).mpr (by decide)

/-- C8: for every record whose items are all dicts and every item whose
`upc` is truthy, `invalid_upc_format: item_{j}` is recorded exactly when
the digit count of `str(upc)` after stripping non-digits is neither 8
nor 12. -/
theorem upc_flag_iff (data : PyDict) (j : Nat)
    (hj : j < (getItems data).length)
    (hdicts : allItemsDicts (getItems data) = true)
    (htr : truthy (itemGet (getItems data)[j] "upc") = true) :
    ("invalid_upc_format: item_" ++ Nat.repr j) ∈ validate_business_rules data ↔
      ¬ ((pyDigits (pyStr (itemGet (getItems data)[j] "upc"))).length = 8 ∨
         (pyDigits (pyStr (itemGet (getItems data)[j] "upc"))).length = 12) := by
  unfold validate_business_rules
  rw [if_pos (getItems_nonempty_of_index data j hj)]
  rw [List.mem_append]
  have hvalid : is_valid_upc (itemGet (getItems data)[j] "upc") = false ↔
      ¬ ((pyDigits (pyStr (itemGet (getItems data)[j] "upc"))).length = 8 ∨
         (pyDigits (pyStr (itemGet (getItems data)[j] "upc"))).length = 12) := by
    unfold is_valid_upc
    rw [if_neg (by simp [htr])]
    constructor
    · intro h hcontra
      rw [decide_eq_false_iff_not] at h
      exact h (by simpa using hcontra)
    · intro h
      rw [decide_eq_false_iff_not]
      simpa using h
  constructor
  · rintro (h | h)
    · rw [mem_itemsFlagsFrom] at h
      obtain ⟨k, hk, hmem⟩ := h
      rw [upc_mem_item_flags] at hmem
      obtain ⟨hjk, _, hinv⟩ := hmem
      have : k = j := by omega
      subst this
      exact hvalid.mp hinv
    · exact absurd h (upc_flag_not_mem_totals j data)
  · intro hlen
    refine Or.inl ?_
    rw [mem_itemsFlagsFrom]
    exact ⟨j, hj, (upc_mem_item_flags _ j _).mpr ⟨by omega, htr, hvalid.mpr hlen⟩⟩

/-- Witness for C8, covering the specification's boundary examples:
a 12-digit UPC and a dash-separated UPC cleaning to 12 digits produce no
finding, a 5-digit UPC produces it. -/
theorem upc_flag_iff_witness :
    ("invalid_upc_format: item_" ++ Nat.repr 0) ∉ validate_business_rules
      [("items", Json.arr [Json.obj [("upc", Json.str "123456789012")]])] ∧
    ("invalid_upc_format: item_" ++ Nat.repr 0) ∉ validate_business_rules
      [("items", Json.arr [Json.obj [("upc", Json.str "1234-5678-9012")]])] ∧
    ("invalid_upc_format: item_" ++ Nat.repr 0) ∈ validate_business_rules
      [("items", Json.arr [Json.obj [("upc", Json.str "12345")]])] :=
  ⟨fun h => absurd ((upc_flag_iff
      [("items", Json.arr [Json.obj [("upc", Json.str "123456789012")]])]
      0 (by decide) (by decide) (by decide)).mp h) (by decide),
   fun h => absurd ((upc_flag_iff
      [("items", Json.arr [Json.obj [("upc", Json.str "1234-5678-9012")]])]
      0 (by decide) (by decide) (by decide)).mp h) (by decide),
   (upc_flag_iff
      [("items", Json.arr [Json.obj [("upc", Json.str "12345")]])]
      0 (by decide) (by decide) (by decide)).mpr (by decide)⟩

lemma calculatedTotal_eq_spec (xs : List Json) : calculatedTotal xs = specItemsSum xs := by
  unfold calculatedTotal specItemsSum
  suffices h : ∀ acc : Frac,
      xs.foldl
        (fun acc it =>
          if ¬ isNoneLike (pyOr (itemGet it "extended_amount") (itemGet it "net_amount")) then
            match pyFloat (pyOr (itemGet it "extended_amount") (itemGet it "net_amount")) with
            | some q => doubleAdd acc q
            | none => acc
          else acc)
        acc = (xs.filterMap specItemAmount).foldl doubleAdd acc by
    exact h (fracOfInt 0)
  induction xs with
  | nil => intro acc; rfl
  | cons it rest ih =>
    intro acc
    simp only [List.foldl_cons, List.filterMap_cons]
    have hspec : specItemAmount it =
        pyFloat (pyOr (itemGet it "extended_amount") (itemGet it "net_amount")) := by
      unfold specItemAmount
      rw [pyOr_pair]
    cases hnl : isNoneLike (pyOr (itemGet it "extended_amount") (itemGet it "net_amount")) with
    | true =>
      rw [hspec, pyFloat_of_isNoneLike _ hnl]
      simp only [Bool.not_true, Bool.false_eq_true, if_false]
      exact ih acc
    | false =>
      rw [hspec]
      simp only [Bool.not_false, Bool.false_eq_true, not_false_eq_true, if_true]
      cases hfl : pyFloat (pyOr (itemGet it "extended_amount") (itemGet it "net_amount")) with
      | none => exact ih acc
      | some q =>
        simp only [List.foldl_cons]
        exact ih (doubleAdd acc q)

/-- Counterexample to C6: on an item with `extended_amount = 0` and
`net_amount = 50` against an invoice total of `50`, the claim's "first
present" reading sums to `0`, so `|0 - 50|` exceeds the tolerance and a
`totals_mismatch` would be required — but the code's `or`-chain skips
the falsy `0`, sums `50`, and records nothing. -/
theorem totals_first_present_counterexample :
    firstPresent (Json.obj [("extended_amount", Json.int 0), ("net_amount", Json.int 50)])
        ["extended_amount", "net_amount"] = some (Json.int 0) ∧
    fracLt (roundToDouble ⟨1, 100⟩)
      (fracAbs (doubleSub (roundToDouble (fracOfInt 0)) (roundToDouble (fracOfInt 50)))) =
      true ∧
    validate_totals
        [("items",
          Json.arr [Json.obj [("extended_amount", Json.int 0), ("net_amount", Json.int 50)]]),
         ("total_sales", Json.int 50)] = [] :=
  ⟨rfl, by decide, rfl⟩

/-- C6 as amended: totals reconciliation sums, over all items, the first
*truthy* of the extended-amount/net-amount fields (Python `or`
semantics), parsed and accumulated in binary64 (unparsable, `None` and
`"None"` entries skipped); it compares against the first *truthy* of the
invoice-level total-sales/gross-total fields and records
`totals_mismatch` exactly when that value parses and the binary64
absolute difference exceeds the binary64 value of `0.01`;
`invalid_invoice_total` exactly when it is non-`None`-like but
unparsable; and nothing when there are no items or the invoice-level
chain is `None`-like.  The comparison is float arithmetic, so a decimal
total at the exact boundary (100.00 vs 100.01) is flagged. -/
theorem totals_reconciliation_characterized (data : PyDict)
    (hdicts : allItemsDicts (getItems data) = true) :
    validate_totals data =
      if (getItems data).isEmpty then []
      else if isNoneLike (specInvoiceTotal data) = true then []
      else
        match pyFloat (specInvoiceTotal data) with
        | some q =>
          if fracLt (roundToDouble ⟨1, 100⟩)
              (fracAbs (doubleSub (specItemsSum (getItems data)) q)) = true then
            ["totals_mismatch"]
          else []
        | none => ["invalid_invoice_total"] := by
  unfold validate_totals
  have h1 : specInvoiceTotal data =
      pyOr (pyGet data "total_sales") (pyGet data "gross_total") := by
    unfold specInvoiceTotal
    rw [pyOr_pair]
  rw [h1, calculatedTotal_eq_spec]
  cases hemp : (getItems data).isEmpty with
  | true => simp
  | false =>
    simp only [Bool.false_eq_true, if_false]
    cases hnl : isNoneLike (pyOr (pyGet data "total_sales") (pyGet data "gross_total")) with
    | true => simp
    | false => simp

/-- Witness for C6's amended theorem, at the specification's boundary
example: items summing to 100.00 against a total of 100.01 — in binary64
the difference strictly exceeds the tolerance, so `totals_mismatch` *is*
recorded; against 100.00 nothing is recorded. -/
theorem totals_reconciliation_characterized_witness :
    validate_totals
        [("items", Json.arr [Json.obj [("extended_amount", Json.str "100.00")]]),
         ("total_sales", Json.str "100.01")] = ["totals_mismatch"] ∧
    validate_totals
        [("items", Json.arr [Json.obj [("extended_amount", Json.str "100.00")]]),
         ("total_sales", Json.str "100.00")] = [] :=
  ⟨(totals_reconciliation_characterized
      [("items", Json.arr [Json.obj [("extended_amount", Json.str "100.00")]]),
       ("total_sales", Json.str "100.01")] (by decide)).trans (by decide),
   (totals_reconciliation_characterized
      [("items", Json.arr [Json.obj [("extended_amount", Json.str "100.00")]]),
       ("total_sales", Json.str "100.00")] (by decide)).trans (by decide)⟩

lemma validate_basic_structure_items_arr (data : PyDict) :
    ∃ xs, lookupKey (validate_basic_structure data).1 "items" = some (.arr xs) := by
  unfold validate_basic_structure itemsListFix
  cases hlk : lookupKey
      ((["vendor", "invoice", "account", "items"].foldl sectionStep (data, []))).1 "items" with
  | none =>
    refine ⟨[], ?_⟩
    rw [lookupKey_insertKey]
    simp
  | some v =>
    cases v with
    | arr xs => exact ⟨xs, hlk⟩
    | null => exact ⟨[], by rw [lookupKey_insertKey]; simp⟩
    | bool b => exact ⟨[], by rw [lookupKey_insertKey]; simp⟩
    | int n => exact ⟨[], by rw [lookupKey_insertKey]; simp⟩
    | float q => exact ⟨[], by rw [lookupKey_insertKey]; simp⟩
    | str s => exact ⟨[], by rw [lookupKey_insertKey]; simp⟩
    | obj kvs => exact ⟨[], by rw [lookupKey_insertKey]; simp⟩

lemma validate_basic_structure_lookup_other (data : PyDict) (k : String)
    (hk : k ∉ (["vendor", "invoice", "account", "items"] : List String)) :
    lookupKey (validate_basic_structure data).1 k = lookupKey data k := by
  have hki : ¬ k = "items" := fun hh => hk (by rw [hh]; decide)
  unfold validate_basic_structure itemsListFix
  cases hlk : lookupKey
      ((["vendor", "invoice", "account", "items"].foldl sectionStep (data, []))).1 "items" with
  | none =>
    rw [lookupKey_insertKey, if_neg hki]
    exact foldl_sectionStep_other _ _ _ hk
  | some v =>
    cases v with
    | arr xs => exact foldl_sectionStep_other _ _ _ hk
    | null => rw [lookupKey_insertKey, if_neg hki]; exact foldl_sectionStep_other _ _ _ hk
    | bool b => rw [lookupKey_insertKey, if_neg hki]; exact foldl_sectionStep_other _ _ _ hk
    | int n => rw [lookupKey_insertKey, if_neg hki]; exact foldl_sectionStep_other _ _ _ hk
    | float q => rw [lookupKey_insertKey, if_neg hki]; exact foldl_sectionStep_other _ _ _ hk
    | str s => rw [lookupKey_insertKey, if_neg hki]; exact foldl_sectionStep_other _ _ _ hk
    | obj kvs => rw [lookupKey_insertKey, if_neg hki]; exact foldl_sectionStep_other _ _ _ hk

lemma validate_basic_structure_lookup_inserted (data : PyDict) (k : String)
    (hk : k ∈ (["vendor", "invoice", "account"] : List String))
    (h : lookupKey data k = none) :
    lookupKey (validate_basic_structure data).1 k = some (.obj []) := by
  have hki : ¬ k = "items" := by
    intro hh
    subst hh
    exact absurd hk (by decide)
  have hmem : k ∈ (["vendor", "invoice", "account", "items"] : List String) := by
    simp only [List.mem_cons, List.not_mem_nil, or_false] at hk ⊢
    tauto
  have hins := foldl_sectionStep_insert ["vendor", "invoice", "account", "items"]
    (data, []) k hmem h
  unfold validate_basic_structure itemsListFix
  cases hlk : lookupKey
      ((["vendor", "invoice", "account", "items"].foldl sectionStep (data, []))).1 "items" with
  | none =>
    rw [lookupKey_insertKey, if_neg hki]
    exact hins.2
  | some v =>
    cases v with
    | arr xs => exact hins.2
    | null => rw [lookupKey_insertKey, if_neg hki]; exact hins.2
    | bool b => rw [lookupKey_insertKey, if_neg hki]; exact hins.2
    | int n => rw [lookupKey_insertKey, if_neg hki]; exact hins.2
    | float q => rw [lookupKey_insertKey, if_neg hki]; exact hins.2
    | str s => rw [lookupKey_insertKey, if_neg hki]; exact hins.2
    | obj kvs => rw [lookupKey_insertKey, if_neg hki]; exact hins.2

/-- Whether a present `items` list holds only dicts (the records on
which the source's coercion loop does not raise). -/
def itemsOkB (data : PyDict) : Bool :=
  match lookupKey data "items" with
  | some (.arr xs) => allItemsDicts xs
  | _ => true

/-- Counterexample to C5: `validate_invoice` mutates its argument.  On
the empty record the caller's dict gains all four sections (so it is no
longer empty), and a record whose item has UPC `"1-2"` sees that nested
item mapping rewritten to `"12"` *through the input reference*. -/
theorem validate_invoice_mutates_input :
    lookupKey ([] : PyDict) "vendor" = none ∧
    lookupKey (validate_invoice [] "lakeshore").inputAfter "vendor" = some (Json.obj []) ∧
    (validate_invoice [] "lakeshore").inputAfter ≠ [] ∧
    lookupKey
        (validate_invoice
          [("vendor", Json.obj []), ("invoice", Json.obj []), ("account", Json.obj []),
           ("items", Json.arr [Json.obj [("upc", Json.str "1-2")]])] "lakeshore").inputAfter
        "items" = some (Json.arr [Json.obj [("upc", Json.str "12")]]) := by
  refine ⟨rfl, rfl, ?_, rfl⟩
  intro h
  have h2 := congrArg (fun d => lookupKey d "vendor") h
  have h3 : (some (Json.obj []) : Option Json) = none := h2
  cases h3

/-- C5 as amended: `validate_invoice` builds its result from a top-level
shallow copy, so coercions of top-level fields are not visible on the
input — every non-section key keeps its original value in the caller's
dict — but the input *is* mutated in place: missing sections are
inserted into it, and the `items` entry of the caller's dict is the same
(coerced) item list as the result's, because the shallow copy shares the
item dicts. -/
theorem validate_invoice_mutation_profile (data : PyDict) (vendor : String)
    (hok : itemsOkB data = true) :
    (∀ k, k ∉ (["vendor", "invoice", "account", "items"] : List String) →
      lookupKey (validate_invoice data vendor).inputAfter k = lookupKey data k) ∧
    lookupKey (validate_invoice data vendor).inputAfter "items" =
      lookupKey (validate_invoice data vendor).result "items" ∧
    (∀ k, k ∈ (["vendor", "invoice", "account"] : List String) →
      lookupKey data k = none →
      lookupKey (validate_invoice data vendor).inputAfter k = some (.obj [])) := by
  obtain ⟨xs, hxs⟩ := validate_basic_structure_items_arr data
  rw [validate_invoice_inputAfter, validate_invoice_result,
      validate_data_types_items _ xs hxs]
  dsimp only
  refine ⟨?_, ?_, ?_⟩
  · intro k hk
    have hki : ¬ k = "items" := by
      intro hh
      subst hh
      exact absurd hk (by intro hc; exact hc (by decide))
    rw [lookupKey_insertKey, if_neg hki]
    exact validate_basic_structure_lookup_other data k hk
  · rw [lookupKey_insertKey, lookupKey_insertKey]
    simp
  · intro k hk hnone
    have hki : ¬ k = "items" := by
      intro hh
      subst hh
      exact absurd hk (by decide)
    rw [lookupKey_insertKey, if_neg hki]
    exact validate_basic_structure_lookup_inserted data k hk hnone

/-- Witness for C5's amended theorem: the `total_sales` string survives
unchanged in the caller's dict (the coerced float lives only in the
returned copy), the `items` entry is shared between the two, and a
missing `vendor` section is inserted into the caller's dict. -/
theorem validate_invoice_mutation_profile_witness :
    lookupKey (validate_invoice [("total_sales", Json.str "7")] "breakthru").inputAfter
      "total_sales" = some (Json.str "7") ∧
    lookupKey (validate_invoice [("total_sales", Json.str "7")] "breakthru").inputAfter
      "items" =
      lookupKey (validate_invoice [("total_sales", Json.str "7")] "breakthru").result
        "items" ∧
    lookupKey (validate_invoice [("total_sales", Json.str "7")] "breakthru").inputAfter
      "vendor" = some (.obj []) :=
  ⟨((validate_invoice_mutation_profile [("total_sales", Json.str "7")] "breakthru"
      (by decide)).1 "total_sales" (by decide)).trans rfl,
   (validate_invoice_mutation_profile [("total_sales", Json.str "7")] "breakthru"
      (by decide)).2.1,
   (validate_invoice_mutation_profile [("total_sales", Json.str "7")] "breakthru"
      (by decide)).2.2 "vendor" (by decide) rfl⟩

/-- C1: for every raw text whose fence-stripped form is syntactically
valid JSON, `_parse_json_response` returns exactly the direct parse of
that text: the success branch of the optimistic parse (line 118) returns
it unchanged, so none of `_fix_json_response`'s heuristics touch valid
input. -/
theorem repair_noop_on_valid_input (raw : List Char) (v : Json)
    (h : loads (stripFences raw) = some v) :
    parse_json_response raw = .ok v := by
  unfold parse_json_response
  simp only [h]

/-- Witness for C1: a fenced, valid JSON object is returned exactly as
its direct parse. -/
theorem repair_noop_on_valid_input_witness :
    loads (stripFences "```json\n\x7b\"a\": 1\x7d\n```".toList) =
      some (Json.obj [("a", Json.int 1)]) ∧
    parse_json_response "```json\n\x7b\"a\": 1\x7d\n```".toList =
      .ok (Json.obj [("a", Json.int 1)]) :=
  ⟨rfl, repair_noop_on_valid_input _ _ rfl⟩

/-- C2: on the truncated text `{"items": [{"a":1},{"b":2},{"c":` the
repair pipeline yields exactly the mapping whose items array has length
2 and holds the first two objects in order. -/
theorem truncated_array_recovery :
    parse_json_response "\x7b\"items\": [\x7b\"a\":1\x7d,\x7b\"b\":2\x7d,\x7b\"c\":".toList =
      .ok (Json.obj [("items",
        Json.arr [Json.obj [("a", Json.int 1)], Json.obj [("b", Json.int 2)]])]) := rfl

/-- Counterexample to C4: a syntactically valid top-level JSON array is
returned as-is by `_parse_json_response` — the early return on the
optimistic-parse path (line 118) skips the `isinstance(parsed, dict)`
check, so a non-mapping is returned without any error being raised. -/
theorem repair_returns_toplevel_array :
    parse_json_response "[1, 2]".toList = .ok (Json.arr [Json.int 1, Json.int 2]) ∧
    isDict (Json.arr [Json.int 1, Json.int 2]) = false :=
  ⟨rfl, rfl⟩

/-- C4 as amended: the `MalformedResponse` / `UnexpectedShape` contract
holds on the repair path — when the optimistic parse fails, the function
either fails with `malformedResponse` (repaired text unparseable),
returns a parsed dict, or fails with `unexpectedShape` (repaired parse is
a non-dict); only the optimistic path can return a non-mapping. -/
theorem repair_path_shape_guard (raw : List Char)
    (h : loads (stripFences raw) = none) :
    (loads (fix_json_response (stripFences raw)) = none ∧
      parse_json_response raw = .error .malformedResponse) ∨
    (∃ v, loads (fix_json_response (stripFences raw)) = some v ∧
      ((isDict v = true ∧ parse_json_response raw = .ok v) ∨
       (isDict v = false ∧ parse_json_response raw = .error .unexpectedShape))) := by
  unfold parse_json_response
  simp only [h]
  cases h2 : loads (fix_json_response (stripFences raw)) with
  | none => exact Or.inl ⟨rfl, rfl⟩
  | some v =>
    refine Or.inr ⟨v, rfl, ?_⟩
    cases h3 : isDict v with
    | true => exact Or.inl ⟨rfl, by simp [h3]⟩
    | false => exact Or.inr ⟨rfl, by simp [h3]⟩

/-- Witness for C4's amended theorem: a truncated object takes the repair
path and comes back as a dict. -/
theorem repair_path_shape_guard_witness :
    loads (stripFences "\x7b\"a\": 1".toList) = none ∧
    ((loads (fix_json_response (stripFences "\x7b\"a\": 1".toList)) = none ∧
      parse_json_response "\x7b\"a\": 1".toList = .error .malformedResponse) ∨
    (∃ v, loads (fix_json_response (stripFences "\x7b\"a\": 1".toList)) = some v ∧
      ((isDict v = true ∧ parse_json_response "\x7b\"a\": 1".toList = .ok v) ∨
       (isDict v = false ∧ parse_json_response "\x7b\"a\": 1".toList = .error .unexpectedShape)))) :=
  ⟨rfl, repair_path_shape_guard _ rfl⟩

/-- C10: `parse_invoice` validates the file before the vendor whitelist,
so a file error wins over an unsupported vendor; the unsupported-vendor
error fires, independently of everything after the guards (image
processing, model call), exactly for vendors outside
`{lakeshore, breakthru, southern_glazers}`. -/
theorem parse_invoice_guard_order (maxMB : Nat) (f : PyFile) (vendor : String)
    (pipeline : Except ParseFailure Json) :
    (∀ e, validate_file maxMB f = .error e →
        parse_invoice maxMB f vendor pipeline = .error e) ∧
    (validate_file maxMB f = .ok () →
      (vendor ∉ supportedVendors →
        parse_invoice maxMB f vendor pipeline = .error .unsupportedVendor) ∧
      (vendor ∈ supportedVendors →
        parse_invoice maxMB f vendor pipeline = pipeline)) := by
  constructor
  · intro e he
    unfold parse_invoice
    simp [he]
  · intro hok
    constructor
    · intro hv
      unfold parse_invoice
      simp [hok, hv]
    · intro hv
      unfold parse_invoice
      simp [hok, hv]

/-- Witness for C10: a missing file beats an unknown vendor; with a valid
file (including an upper-case extension) an unknown vendor fails before
the pipeline runs, and a supported vendor reaches the pipeline. -/
theorem parse_invoice_guard_order_witness :
    validate_file 20 ⟨false, ".pdf", 100⟩ = .error .fileNotFound ∧
    parse_invoice 20 ⟨false, ".pdf", 100⟩ "acme" (.ok .null) = .error .fileNotFound ∧
    validate_file 20 ⟨true, ".PDF", 100⟩ = .ok () ∧
    parse_invoice 20 ⟨true, ".PDF", 100⟩ "acme" (.ok .null) = .error .unsupportedVendor ∧
    parse_invoice 20 ⟨true, ".PDF", 100⟩ "breakthru" (.ok .null) = .ok .null :=
  ⟨rfl,
   (parse_invoice_guard_order 20 ⟨false, ".pdf", 100⟩ "acme" (.ok .null)).1 _ rfl,
   rfl,
   ((parse_invoice_guard_order 20 ⟨true, ".PDF", 100⟩ "acme" (.ok .null)).2 rfl).1 (by decide),
   ((parse_invoice_guard_order 20 ⟨true, ".PDF", 100⟩ "breakthru" (.ok .null)).2 rfl).2 (by decide)⟩

end InvoiceSpec
